import Mathlib

/-!
Verification of the RAG chatbot repository against its specification.

The repository's frontend (`ChatInterface.tsx`, the `DocumentUpload` page,
`services/api.ts`) and server configuration are embedded directly from the
TypeScript source.  The backend core (chunker, vector store, chat
orchestrator, session store) is not present in the source tree — only its
callers and configuration are — so those components are modelled from the
specification, as marked in the doc comments below.
-/

namespace RagChatbot

/-! ## Chunker

Modelled from the spec (§4.1): the chunker itself is backend code absent from
the source tree; only its configuration (`config.chunkSize = 1000`,
`config.chunkOverlap = 200` in `src/server/src/config/config.ts`) is present.
The contract: given text, size `S` and overlap `O` with `0 ≤ O < S`, produce
an ordered sequence of non-empty chunks, each of length ≤ `S`, where the
last `O` units of chunk `i` equal the first `O` units of chunk `i+1`, and
concatenating the chunks with the overlaps removed reproduces the text.
-/

/-- Default chunk size from `src/server/src/config/config.ts`
(`CHUNK_SIZE`, default `'1000'`). -/
def chunkSize : Nat := 1000

/-- Default chunk overlap from `src/server/src/config/config.ts`
(`CHUNK_OVERLAP`, default `'200'`). -/
def chunkOverlap : Nat := 200

/-- Modelled from the spec: the sliding-window split, structurally recursive
on a fuel argument (the fuel is instantiated with the text length in
`chunkText`, which always suffices since each step consumes at least one
character).  Each step emits the next `S` characters and advances by
`S - O`, so consecutive chunks share `O` characters; text of length ≤ `S`
yields a single chunk; empty text yields no chunks (the spec requires every
chunk to be non-empty).  The `S ≤ O` branch is unreachable behind the
`InvalidConfig` guard of `chunkDocument`. -/
def chunkTextAux (S O : Nat) : Nat → List Char → List (List Char)
  | _, [] => []
  | 0, _ :: _ => []
  | n + 1, c :: cs =>
    if (c :: cs).length ≤ S then [c :: cs]
    else if S ≤ O then []
    else (c :: cs).take S :: chunkTextAux S O n ((c :: cs).drop (S - O))

/-- Modelled from the spec: the Chunker's split of document text (a list of
characters) into overlapping chunks of size `S` with overlap `O`. -/
def chunkText (S O : Nat) (t : List Char) : List (List Char) :=
  chunkTextAux S O t.length t

/-- Modelled from the spec: the error taxonomy entry for bad chunk
parameters (`InvalidConfig`, §7). -/
inductive ChunkerError where
  | invalidConfig
deriving DecidableEq, Repr

/-- Modelled from the spec: the Chunker entry point, failing with
`InvalidConfig` when `O ≥ S` or `S ≤ 0`. -/
def chunkDocument (S O : Nat) (t : List Char) :
    Except ChunkerError (List (List Char)) :=
  if S = 0 ∨ S ≤ O then .error .invalidConfig
  else .ok (chunkText S O t)

/-- Reassembly: the first chunk whole, every later chunk with its first `O`
characters (the overlap) removed. -/
def reassemble (O : Nat) : List (List Char) → List Char
  | [] => []
  | c :: rest => c ++ (rest.map (List.drop O)).flatten

/-! ## Vector Store

Modelled from the spec (§4.2): the vector store is backend code absent from
the source tree.  `Search(query_vector, k)` returns the `k` chunk records
with the highest cosine similarity to the query vector, strictly descending
by score, ties broken by insertion order (earlier first); `k` is clamped to
the number of stored records; an empty index signals `EmptyIndex`.
-/

/-- A stored chunk record: text, source label (document title) and
embedding vector, per spec §4.2/§3.  Vector components are modelled as
rationals. -/
structure ChunkRecord where
  chunkId : String
  text : String
  sourceLabel : String
  vector : List ℚ
deriving DecidableEq, Repr

/-- Modelled from the spec: the `EmptyIndex` error of §4.2/§7. -/
inductive SearchError where
  | emptyIndex
deriving DecidableEq, Repr

/-- Dot product of two vectors (componentwise, stopping at the shorter). -/
def dot : List ℚ → List ℚ → ℚ
  | [], _ => 0
  | _, [] => 0
  | a :: as, b :: bs => a * b + dot as bs

/-- Squared Euclidean norm. -/
def normSq (v : List ℚ) : ℚ := dot v v

/-- Modelled from the spec: a rational ranking key for cosine similarity on
raw vectors.  Cosine similarity itself is `dot v q / (‖v‖·‖q‖)`, which is
irrational in general; `cosineKey v q = sign(dot v q) · (dot v q)² /
(‖v‖²·‖q‖²)` is `sign(cos)·cos²`, the image of the cosine under the
strictly increasing map `x ↦ sign(x)·x²`, so comparing keys is exactly
comparing cosine similarities and the ranking produced is identical. -/
def cosineKey (v q : List ℚ) : ℚ :=
  (if dot v q < 0 then -1 else 1) * (dot v q) ^ 2 / (normSq v * normSq q)

/-- Each stored record annotated with its insertion index and its score
against the query. -/
def scored (q : List ℚ) (store : List ChunkRecord) :
    List (Nat × ChunkRecord × ℚ) :=
  store.enum.map (fun p => (p.1, p.2, cosineKey p.2.vector q))

/-- The (non-strict) ranking order used by `search`: higher score first,
ties by smaller insertion index first. -/
def rankRel (a b : Nat × ChunkRecord × ℚ) : Prop :=
  b.2.2 < a.2.2 ∨ (a.2.2 = b.2.2 ∧ a.1 ≤ b.1)

instance : DecidableRel rankRel := fun a b => by
  unfold rankRel; infer_instance

instance : IsTotal (Nat × ChunkRecord × ℚ) rankRel where
  total a b := by
    unfold rankRel
    rcases lt_trichotomy a.2.2 b.2.2 with h | h | h
    · exact Or.inr (Or.inl h)
    · rcases Nat.le_total a.1 b.1 with hi | hi
      · exact Or.inl (Or.inr ⟨h, hi⟩)
      · exact Or.inr (Or.inr ⟨h.symm, hi⟩)
    · exact Or.inl (Or.inl h)

instance : IsTrans (Nat × ChunkRecord × ℚ) rankRel where
  trans a b c hab hbc := by
    unfold rankRel at *
    rcases hab with h1 | ⟨e1, i1⟩ <;> rcases hbc with h2 | ⟨e2, i2⟩
    · exact Or.inl (lt_trans h2 h1)
    · exact Or.inl (e2 ▸ h1)
    · exact Or.inl (e1 ▸ h2)
    · exact Or.inr ⟨e1.trans e2, le_trans i1 i2⟩

/-- The strict version of `rankRel` (strictly descending score, ties by
strictly earlier insertion index), used to state the search ordering. -/
def strictRank (a b : Nat × ChunkRecord × ℚ) : Prop :=
  b.2.2 < a.2.2 ∨ (a.2.2 = b.2.2 ∧ a.1 < b.1)

/-- Modelled from the spec: `Search(query_vector, k)` — ranks all stored
records by cosine similarity (descending, ties by insertion order) and
returns the first `k`; fails with `EmptyIndex` on an empty store.  Results
carry their insertion index and score. -/
def search (store : List ChunkRecord) (q : List ℚ) (k : Nat) :
    Except SearchError (List (Nat × ChunkRecord × ℚ)) :=
  match store with
  | [] => .error .emptyIndex
  | _ :: _ => .ok (((scored q store).insertionSort rankRel).take k)

/-! ## Chat Orchestrator and Session Store

Modelled from the spec (§4.4, §4.5, §6): the orchestrator and session store
are backend code absent from the source tree; the frontend consumes them
through `chatAPI` in `services/api.ts`.  The two external collaborators
(Retriever output and generative model outcome) enter as parameters.
-/

/-- Message role, from `src/frontend/src/pages/ChatInterface.tsx`
(`role: 'user' | 'assistant'`). -/
inductive Role where
  | user
  | assistant
deriving DecidableEq, Repr

/-- Modelled from the spec (§3): a Message — role, text, token count (for
assistant turns) and grounding source labels (for assistant turns). -/
structure Msg where
  role : Role
  content : String
  tokens : Option Nat
  sources : List String
deriving DecidableEq, Repr

/-- Modelled from the spec (§3): a Session — identity, creation timestamp,
ordered Messages, cumulative token counter. -/
structure Session where
  id : String
  createdAt : Nat
  messages : List Msg
  totalTokens : Nat
deriving DecidableEq, Repr

/-- Modelled from the spec: the session store's state — sessions in creation
order plus a counter from which fresh identities are generated. -/
structure OrchState where
  sessions : List Session
  nextId : Nat
deriving DecidableEq, Repr

/-- From `src/frontend/src/types/index.ts` lines 31–36 (also repeated in
`ChatInterface.tsx` lines 13–18): the response of the query entrypoint,
carrying the four components answer text (`message`), resolved session
identity (`chat_id`), grounding source labels (`sources`) and the assistant
turn's token count (`tokens_used`). -/
structure ChatResponse where
  message : String
  chat_id : String
  sources : List String
  tokens_used : Nat
deriving DecidableEq, Repr

/-- Modelled from the spec (§7): the typed errors of the query path. -/
inductive AskError where
  | sessionNotFound
  | generationFailed
deriving DecidableEq, Repr

/-- Fresh session identity generated from the counter (non-empty by
construction). -/
def mkSessionId (n : Nat) : String :=
  ⟨'s' :: Nat.toDigits 10 n⟩

/-- Look a session up by identity. -/
def getSession (st : OrchState) (sid : String) : Option Session :=
  st.sessions.find? (fun s => s.id = sid)

/-- Apply `f` to the session with identity `sid`, leaving others alone. -/
def updateSession (st : OrchState) (sid : String) (f : Session → Session) :
    OrchState :=
  { st with sessions := st.sessions.map (fun s => if s.id = sid then f s else s) }

/-- Modelled from the spec (§4.4): session resolution — with no identity
supplied, create a new Session under a fresh identity; otherwise load the
existing one, failing with `SessionNotFound` when the identity is unknown.
`now` is the creation timestamp for an implicitly created session. -/
def resolveSession (st : OrchState) (now : Nat) :
    Option String → Except AskError (String × OrchState)
  | none =>
    let sid := mkSessionId st.nextId
    .ok (sid, { sessions := st.sessions ++ [⟨sid, now, [], 0⟩],
                nextId := st.nextId + 1 })
  | some sid =>
    if st.sessions.any (fun s => s.id = sid) then .ok (sid, st)
    else .error .sessionNotFound

/-- A user Message (no token count, no sources). -/
def userMsg (content : String) : Msg := ⟨.user, content, none, []⟩

/-- An assistant Message carrying its token count and source labels. -/
def assistantMsg (content : String) (tk : Nat) (srcs : List String) : Msg :=
  ⟨.assistant, content, some tk, srcs⟩

/-- Modelled from the spec (§4.4, §6): the query entrypoint
`ask(message, session_id?)`.  `retrieve` is the Retriever returning the
source labels of the retrieved context for the query; `model` is the
outcome of the external generative call (`.ok (text, token_count)` or
`.error ()` for timeout/rate-limit/transport failure).  The user Message is
persisted before the model invocation; on model failure no assistant
Message is persisted and `GenerationFailed` is returned; on success the
assistant Message (with token count and sources) is appended, the
cumulative token counter updated, and the answer, resolved identity,
sources and token count returned. -/
def ask (retrieve : String → List String)
    (model : Except Unit (String × Nat))
    (st : OrchState) (now : Nat) (message : String)
    (sessionId : Option String) :
    OrchState × Except AskError ChatResponse :=
  match resolveSession st now sessionId with
  | .error e => (st, .error e)
  | .ok (sid, st1) =>
    let st2 := updateSession st1 sid
      (fun s => { s with messages := s.messages ++ [userMsg message] })
    let sources := retrieve message
    match model with
    | .error _ => (st2, .error .generationFailed)
    | .ok (ans, tk) =>
      let st3 := updateSession st2 sid
        (fun s => { s with
          messages := s.messages ++ [assistantMsg ans tk sources],
          totalTokens := s.totalTokens + tk })
      (st3, .ok ⟨ans, sid, sources, tk⟩)

/-- Modelled from the spec (§4.5): `Clear(session_id)` removes all Messages
and resets the token counter, preserving the Session identity. -/
def clearSession (st : OrchState) (sid : String) : OrchState :=
  updateSession st sid (fun s => { s with messages := [], totalTokens := 0 })

/-! ## Chat interface state (frontend)

Embedded from `src/frontend/src/pages/ChatInterface.tsx`.
-/

/-- From `ChatInterface.tsx` lines 5–11: a chat message held in component
state (`tokens_used` is optional and set only on successful assistant
turns). -/
structure UIMessage where
  id : String
  content : String
  role : Role
  created_at : String
  tokens_used : Option Nat
deriving DecidableEq, Repr

/-- From `src/frontend/src/types/index.ts` lines 26–29 and
`services/api.ts` (`chatAPI.sendMessage`): the POST body of `/api/chat/`
(`chat_id` omitted when `currentChatId` is null). -/
structure ChatRequest where
  message : String
  chat_id : Option String
deriving DecidableEq, Repr

/-- From `ChatInterface.tsx` lines 21–26: the component state. -/
structure ChatUIState where
  messages : List UIMessage
  inputMessage : String
  isLoading : Bool
  currentChatId : Option String
  sources : List String
  totalTokens : Nat
deriving DecidableEq, Repr

/-- Is `c` one of the ASCII whitespace characters trimmed by JavaScript's
`String.prototype.trim`?  (The model restricts JS's Unicode whitespace set
to its ASCII part.) -/
def isWsChar (c : Char) : Bool :=
  c = ' ' ∨ c = '\t' ∨ c = '\n' ∨ c = '\r'

/-- Model of JavaScript `inputMessage.trim()`: remove leading and trailing
whitespace. -/
def jsTrim (s : String) : String :=
  ⟨((s.data.dropWhile isWsChar).reverse.dropWhile isWsChar).reverse⟩

/-- From `ChatInterface.tsx` lines 46–99 (`handleSendMessage`): the guard
returns immediately when the trimmed input is empty or a request is in
flight; otherwise the trimmed input is recorded as a user message, the API
is called with `(trimmed input, currentChatId || undefined)`, and on
success the assistant message, chat id, sources and token counter are
updated, while on a thrown error a tokenless assistant error message is
appended and the other state is untouched.  `outcome` is the result of the
awaited `chatAPI.sendMessage` call (`none` models a thrown error); `uid`,
`aid`, `now` stand for the `Date.now()`-derived ids and the ISO timestamp.
Returns the new state and the request sent, if any. -/
def handleSendMessage (st : ChatUIState) (outcome : Option ChatResponse)
    (uid aid now : String) : ChatUIState × Option ChatRequest :=
  if jsTrim st.inputMessage = "" ∨ st.isLoading then (st, none)
  else
    let userMessage := jsTrim st.inputMessage
    let uMsg : UIMessage := ⟨uid, userMessage, .user, now, none⟩
    let req : ChatRequest := ⟨userMessage, st.currentChatId⟩
    match outcome with
    | some resp =>
      ({ messages := st.messages ++ [uMsg,
           ⟨aid, resp.message, .assistant, now, some resp.tokens_used⟩],
         inputMessage := "",
         isLoading := false,
         currentChatId := some (st.currentChatId.getD resp.chat_id),
         sources := resp.sources,
         totalTokens := st.totalTokens + resp.tokens_used }, some req)
    | none =>
      ({ messages := st.messages ++ [uMsg,
           ⟨aid, "Sorry, I encountered an error. Please try again.",
            .assistant, now, none⟩],
         inputMessage := "",
         isLoading := false,
         currentChatId := st.currentChatId,
         sources := st.sources,
         totalTokens := st.totalTokens }, some req)

/-- From `ChatInterface.tsx` lines 108–115 (`clearChat`), on the confirmed
path: messages, sources and the token counter are cleared and the chat id
reset. -/
def clearChat (st : ChatUIState) : ChatUIState :=
  { st with messages := [], sources := [], totalTokens := 0,
            currentChatId := none }

/-- Token-accounting invariant of the chat interface state: the running
total equals the sum of `tokens_used` over the assistant messages currently
in the list (a message without the field counts 0). -/
def tokensInv (st : ChatUIState) : Prop :=
  st.totalTokens =
    ((st.messages.filter (fun m => m.role == Role.assistant)).map
      (fun m => m.tokens_used.getD 0)).sum

/-! ## Document upload page (frontend)

Embedded from the `DocumentUpload` page component
(`handleFileSelect`, cited as `src/frontend/src/types/index.ts`
lines 112–122 in the claim material).
-/

/-- The two fields of a browser `File` object that `handleFileSelect`
inspects: `name` and (MIME) `type`. -/
structure FileInfo where
  name : String
  mime : String
deriving DecidableEq, Repr

/-- Message banner state set by `showMessage` (`type`, `text`). -/
inductive UploadMsgType where
  | success
  | error
deriving DecidableEq, Repr

/-- The part of the `DocumentUpload` component state that `handleFileSelect`
touches: the selected file, the default title and the message banner. -/
structure UploadState where
  selectedFile : Option FileInfo
  customTitle : String
  banner : Option (UploadMsgType × String)
deriving DecidableEq, Repr

/-- Whether the first list is a leading segment of the second
(character lists). -/
def startsWithL : List Char → List Char → Bool
  | [], _ => true
  | _ :: _, [] => false
  | p :: ps, c :: cs => p = c && startsWithL ps cs

/-- Model of JavaScript `name.endsWith(t)`. -/
def jsEndsWith (s t : String) : Bool :=
  startsWithL t.data.reverse s.data.reverse

/-- Helper of `jsReplaceFirst` on character lists. -/
def replaceFirstL (p : List Char) : List Char → List Char
  | [] => []
  | c :: cs =>
    if startsWithL p (c :: cs) then (c :: cs).drop p.length
    else c :: replaceFirstL p cs

/-- Model of JavaScript `s.replace(t, '')` with a string pattern: remove the
FIRST occurrence of `t` from `s` (not necessarily a suffix). -/
def jsReplaceFirst (s t : String) : String :=
  ⟨replaceFirstL t.data s.data⟩

/-- From the `DocumentUpload` page (`handleFileSelect`): with a file chosen,
accept it as the selected upload and default the title to
`file.name.replace('.txt', '')` when its MIME type is `text/plain` or its
name ends with `.txt`; otherwise show the error banner
"Please select a .txt file" and leave the selection unchanged. -/
def handleFileSelect (st : UploadState) (file : Option FileInfo) :
    UploadState :=
  match file with
  | none => st
  | some f =>
    if f.mime = "text/plain" || jsEndsWith f.name ".txt" then
      { st with selectedFile := some f,
                customTitle := jsReplaceFirst f.name ".txt" }
    else
      { st with banner := some (.error, "Please select a .txt file") }

/-- The claim's reading of the default upload title, for comparison with
the code: the file's name minus the `.txt` SUFFIX (removed when present,
name kept unchanged otherwise). -/
def specDefaultTitle (name : String) : String :=
  if jsEndsWith name ".txt" then ⟨name.data.take (name.data.length - 4)⟩
  else name

theorem chunkTextAux_fuel (S O : Nat) :
    ∀ n m (t : List Char), t.length ≤ n → t.length ≤ m →
      chunkTextAux S O n t = chunkTextAux S O m t := by
  intro n
  induction n with
  | zero =>
    intro m t hn _
    have h0 : t = [] := List.eq_nil_of_length_eq_zero (Nat.le_zero.mp hn)
    subst h0
    cases m <;> rfl
  | succ n ih =>
    intro m t hn hm
    cases t with
    | nil => cases m <;> rfl
    | cons c cs =>
      cases m with
      | zero => simp at hm
      | succ m =>
        simp only [chunkTextAux]
        split_ifs with h1 h2
        · rfl
        · rfl
        · have hlen : ((c :: cs).drop (S - O)).length ≤ n ∧
              ((c :: cs).drop (S - O)).length ≤ m := by
            simp only [List.length_drop, List.length_cons] at *
            omega
          rw [ih m _ hlen.1 hlen.2]

theorem chunkText_nil (S O : Nat) : chunkText S O [] = [] := rfl

theorem chunkText_small (S O : Nat) (t : List Char) (h1 : t ≠ [])
    (h2 : t.length ≤ S) : chunkText S O t = [t] := by
  cases t with
  | nil => exact absurd rfl h1
  | cons c cs =>
    simp only [chunkText, List.length_cons, chunkTextAux]
    rw [if_pos (by simpa using h2)]

theorem chunkText_step (S O : Nat) (t : List Char) (h2 : S < t.length)
    (h3 : O < S) :
    chunkText S O t = t.take S :: chunkText S O (t.drop (S - O)) := by
  cases t with
  | nil => simp at h2
  | cons c cs =>
    simp only [chunkText, List.length_cons, chunkTextAux]
    simp only [List.length_cons] at h2
    rw [if_neg (by omega), if_neg (by omega : ¬S ≤ O)]
    rw [chunkTextAux_fuel S O cs.length ((c :: cs).drop (S - O)).length _
      (by simp only [List.length_drop, List.length_cons]; omega) le_rfl]

theorem chunkText_dropAll (S O : Nat) (hO : O < S) :
    ∀ n (t : List Char), t.length ≤ n →
      ((chunkText S O t).map (List.drop O)).flatten = t.drop O := by
  intro n
  induction n with
  | zero =>
    intro t ht
    have h0 : t = [] := List.eq_nil_of_length_eq_zero (Nat.le_zero.mp ht)
    subst h0
    simp [chunkText_nil]
  | succ n ih =>
    intro t ht
    by_cases h0 : t = []
    · subst h0; simp [chunkText_nil]
    by_cases h2 : t.length ≤ S
    · rw [chunkText_small S O t h0 h2]; simp
    · rw [chunkText_step S O t (by omega) hO]
      simp only [List.map_cons, List.flatten_cons]
      rw [ih (t.drop (S - O)) (by simp only [List.length_drop]; omega)]
      rw [List.drop_drop]
      have hSO : S - O + O = S := by omega
      rw [hSO]
      rw [List.drop_take]
      have hOS : O + (S - O) = S := by omega
      calc (t.drop O).take (S - O) ++ t.drop S
          = (t.drop O).take (S - O) ++ (t.drop O).drop (S - O) := by
            rw [List.drop_drop, hOS]
        _ = t.drop O := List.take_append_drop _ _

theorem chunkText_chunks_ok (S O : Nat) (hS : 0 < S) (hO : O < S) :
    ∀ n (t : List Char), t.length ≤ n →
      ∀ c ∈ chunkText S O t, c ≠ [] ∧ c.length ≤ S := by
  intro n
  induction n with
  | zero =>
    intro t ht
    have h0 : t = [] := List.eq_nil_of_length_eq_zero (Nat.le_zero.mp ht)
    subst h0
    simp [chunkText_nil]
  | succ n ih =>
    intro t ht
    by_cases h0 : t = []
    · subst h0; simp [chunkText_nil]
    by_cases h2 : t.length ≤ S
    · rw [chunkText_small S O t h0 h2]
      intro c hc
      simp only [List.mem_singleton] at hc
      subst hc
      exact ⟨h0, h2⟩
    · rw [chunkText_step S O t (by omega) hO]
      intro c hc
      rcases List.mem_cons.mp hc with rfl | hmem
      · constructor
        · intro he
          have := congrArg List.length he
          simp only [List.length_take, List.length_nil] at this
          omega
        · simp [List.length_take]
      · exact ih (t.drop (S - O)) (by simp only [List.length_drop]; omega) c hmem

theorem chunkText_reassemble (S O : Nat) (hO : O < S)
    (t : List Char) : reassemble O (chunkText S O t) = t := by
  by_cases h0 : t = []
  · subst h0; simp [chunkText_nil, reassemble]
  by_cases h2 : t.length ≤ S
  · rw [chunkText_small S O t h0 h2]; simp [reassemble]
  · rw [chunkText_step S O t (by omega) hO]
    simp only [reassemble]
    rw [chunkText_dropAll S O hO (t.drop (S - O)).length _ le_rfl]
    rw [List.drop_drop]
    have hSO : S - O + O = S := by omega
    rw [hSO, List.take_append_drop]

theorem chunkText_at_2500 (t : List Char) (ht : t.length = 2500) :
    chunkText 1000 200 t
      = [t.take 1000, (t.drop 800).take 1000, t.drop 1600] := by
  rw [chunkText_step 1000 200 t (by omega) (by omega)]
  rw [(by norm_num : (1000 : Nat) - 200 = 800)]
  rw [chunkText_step 1000 200 (t.drop 800)
    (by simp only [List.length_drop]; omega) (by omega)]
  rw [(by norm_num : (1000 : Nat) - 200 = 800)]
  rw [List.drop_drop]
  rw [(by norm_num : (800 : Nat) + 800 = 1600)]
  rw [chunkText_small 1000 200 (t.drop 1600)
    (by
      have : (t.drop 1600).length = 900 := by
        simp only [List.length_drop]; omega
      intro he
      rw [he] at this
      simp at this)
    (by simp only [List.length_drop]; omega)]

/-- C6: for every document text and every valid configuration (`S > 0`,
`0 ≤ O < S`), reassembling the chunker's output (removing the `O`-character
overlap of every chunk after the first) reconstructs the original text
exactly, and each produced chunk is non-empty with length at most `S`. -/
theorem chunking_lossless (S O : Nat) (t : List Char) (hS : 0 < S)
    (hO : O < S) :
    reassemble O (chunkText S O t) = t ∧
      ∀ c ∈ chunkText S O t, c ≠ [] ∧ c.length ≤ S :=
  ⟨chunkText_reassemble S O hO t,
   chunkText_chunks_ok S O hS hO t.length t le_rfl⟩

/-- Witness for `chunking_lossless` at `S = 3`, `O = 1`,
`t = "abcde"`. -/
theorem chunking_lossless_witness :
    reassemble 1 (chunkText 3 1 "abcde".data) = "abcde".data ∧
      ∀ c ∈ chunkText 3 1 "abcde".data, c ≠ [] ∧ c.length ≤ 3 :=
  chunking_lossless 3 1 "abcde".data (by norm_num) (by norm_num)

/-- C5 counterexample: on a 2500-character text with the configured defaults
`S = 1000`, `O = 200`, the chunker produces chunks of lengths
`[1000, 1000, 900]`, not `[1000, 1000, 700]` as the claim states (lengths
`{1000, 1000, 700}` are impossible for any chunker with a 200-character
overlap at both boundaries that reconstructs the 2500-character text:
`1000 + 800 + 500 = 2300 ≠ 2500`). -/
theorem scenario1_counterexample :
    (chunkText chunkSize chunkOverlap (List.replicate 2500 'a')).map
        List.length = [1000, 1000, 900] ∧
      ([1000, 1000, 900] : List Nat) ≠ [1000, 1000, 700] := by
  constructor
  · show (chunkText 1000 200 _).map List.length = _
    rw [chunkText_at_2500 _ (List.length_replicate 2500 'a')]
    simp only [List.map_cons, List.map_nil, List.length_take,
      List.length_drop, List.length_replicate]
    norm_num
  · decide

/-- C5 (amended): ingesting a document whose text is exactly 2500 characters
with the configured defaults `S = 1000`, `O = 200` produces exactly 3 chunks
whose lengths are 1000, 1000 and 900, with a 200-character overlap at each
adjacent-chunk boundary. -/
theorem scenario1_chunks (t : List Char) (ht : t.length = 2500) :
    ∃ c1 c2 c3, chunkText chunkSize chunkOverlap t = [c1, c2, c3] ∧
      c1.length = 1000 ∧ c2.length = 1000 ∧ c3.length = 900 ∧
      c1.drop 800 = c2.take 200 ∧ c2.drop 800 = c3.take 200 := by
  refine ⟨t.take 1000, (t.drop 800).take 1000, t.drop 1600, ?_, ?_, ?_, ?_, ?_, ?_⟩
  · exact chunkText_at_2500 t ht
  · simp only [List.length_take]; omega
  · simp only [List.length_take, List.length_drop]; omega
  · simp only [List.length_drop]; omega
  · rw [List.drop_take, List.take_take]
    norm_num
  · rw [List.drop_take, List.drop_drop]

/-- Witness for `scenario1_chunks` at a concrete 2500-character text. -/
theorem scenario1_chunks_witness :
    ∃ c1 c2 c3,
      chunkText chunkSize chunkOverlap (List.replicate 2500 'a')
          = [c1, c2, c3] ∧
        c1.length = 1000 ∧ c2.length = 1000 ∧ c3.length = 900 ∧
        c1.drop 800 = c2.take 200 ∧ c2.drop 800 = c3.take 200 :=
  scenario1_chunks (List.replicate 2500 'a') (List.length_replicate 2500 'a')

theorem pairwise_strictRank_of (l : List (Nat × ChunkRecord × ℚ))
    (h1 : l.Pairwise rankRel) (h2 : l.Pairwise (fun a b => a.1 ≠ b.1)) :
    l.Pairwise strictRank := by
  induction l with
  | nil => exact List.Pairwise.nil
  | cons a l ih =>
    rcases List.pairwise_cons.mp h1 with ⟨ha1, ht1⟩
    rcases List.pairwise_cons.mp h2 with ⟨ha2, ht2⟩
    refine List.pairwise_cons.mpr ⟨fun b hb => ?_, ih ht1 ht2⟩
    rcases ha1 b hb with h | ⟨e, hle⟩
    · exact Or.inl h
    · exact Or.inr ⟨e, lt_of_le_of_ne hle (ha2 b hb)⟩

theorem scored_length (q : List ℚ) (store : List ChunkRecord) :
    (scored q store).length = store.length := by
  simp [scored]

theorem scored_map_fst (q : List ℚ) (store : List ChunkRecord) :
    (scored q store).map Prod.fst = List.range store.length := by
  unfold scored
  rw [List.map_map]
  have hc : (Prod.fst ∘ fun p : Nat × ChunkRecord =>
      (p.1, p.2, cosineKey p.2.vector q)) = Prod.fst := rfl
  rw [hc, List.enum_map_fst]

/-- C7: on a non-empty store, `Search(query_vector, k)` returns
`min k (store size)` records that are a top-`k` selection: the returned
list, followed by the left-out records, is a permutation of all scored
records that is pairwise strictly descending by score with ties broken by
insertion order (earlier first) — so the result is sorted and every
returned record ranks strictly above every record left out.  On an empty
store, `Search` signals `EmptyIndex`. -/
theorem search_spec (store : List ChunkRecord) (q : List ℚ) (k : Nat) :
    (store = [] → search store q k = .error .emptyIndex) ∧
    (store ≠ [] → ∃ out rest,
      search store q k = .ok out ∧
      out.length = min k store.length ∧
      (scored q store).Perm (out ++ rest) ∧
      (out ++ rest).Pairwise strictRank) := by
  constructor
  · intro h; subst h; rfl
  · intro h
    cases store with
    | nil => exact absurd rfl h
    | cons s ss =>
      refine ⟨((scored q (s :: ss)).insertionSort rankRel).take k,
        ((scored q (s :: ss)).insertionSort rankRel).drop k, rfl, ?_, ?_, ?_⟩
      · rw [List.length_take]
        congr 1
        calc ((scored q (s :: ss)).insertionSort rankRel).length
            = (scored q (s :: ss)).length :=
              (List.perm_insertionSort rankRel _).length_eq
          _ = (s :: ss).length := scored_length q (s :: ss)
      · rw [List.take_append_drop]
        exact (List.perm_insertionSort rankRel _).symm
      · rw [List.take_append_drop]
        apply pairwise_strictRank_of
        · exact List.sorted_insertionSort rankRel _
        · have hperm :
              (((scored q (s :: ss)).insertionSort rankRel).map Prod.fst).Perm
                ((scored q (s :: ss)).map Prod.fst) :=
            (List.perm_insertionSort rankRel _).map Prod.fst
          have hnd :
              (((scored q (s :: ss)).insertionSort rankRel).map Prod.fst).Nodup := by
            rw [hperm.nodup_iff, scored_map_fst]
            exact List.nodup_range _
          exact List.pairwise_map.mp hnd

/-- Witness for `search_spec`: an empty store signals `EmptyIndex`, and a
concrete two-record store with `k = 5` yields a clamped, ranked result. -/
theorem search_spec_witness :
    search ([] : List ChunkRecord) [1] 3 = .error .emptyIndex ∧
    ∃ out rest,
      search [⟨"c0", "t0", "doc0", [1, 0]⟩, ⟨"c1", "t1", "doc1", [0, 1]⟩]
          [1, 0] 5 = .ok out ∧
      out.length = min 5
        ([⟨"c0", "t0", "doc0", [1, 0]⟩,
          ⟨"c1", "t1", "doc1", [0, 1]⟩] : List ChunkRecord).length ∧
      (scored [1, 0]
        [⟨"c0", "t0", "doc0", [1, 0]⟩, ⟨"c1", "t1", "doc1", [0, 1]⟩]).Perm
        (out ++ rest) ∧
      (out ++ rest).Pairwise strictRank :=
  ⟨(search_spec [] [1] 3).1 rfl,
   (search_spec [⟨"c0", "t0", "doc0", [1, 0]⟩, ⟨"c1", "t1", "doc1", [0, 1]⟩]
      [1, 0] 5).2 (List.cons_ne_nil _ _)⟩

theorem find_update_self (sessions : List Session) (sid : String)
    (f : Session → Session) (hf : ∀ s, (f s).id = s.id) (sess : Session)
    (hfind : sessions.find? (fun s => s.id = sid) = some sess) :
    (sessions.map (fun s => if s.id = sid then f s else s)).find?
      (fun s => s.id = sid) = some (f sess) := by
  induction sessions with
  | nil => simp at hfind
  | cons a rest ih =>
    by_cases ha : a.id = sid
    · rw [List.find?_cons_of_pos _ (by simpa using ha)] at hfind
      injection hfind with he
      subst he
      simp only [List.map_cons, if_pos ha]
      exact List.find?_cons_of_pos _ (by simpa using (hf a).trans ha)
    · rw [List.find?_cons_of_neg _ (by simpa using ha)] at hfind
      simp only [List.map_cons, if_neg ha]
      rw [List.find?_cons_of_neg _ (by simpa using ha)]
      exact ih hfind

theorem find_update_other (sessions : List Session) (sid sid' : String)
    (f : Session → Session) (hf : ∀ s, (f s).id = s.id) (hne : sid' ≠ sid) :
    (sessions.map (fun s => if s.id = sid then f s else s)).find?
      (fun s => s.id = sid') = sessions.find? (fun s => s.id = sid') := by
  induction sessions with
  | nil => simp
  | cons a rest ih =>
    by_cases ha : a.id = sid
    · have ha' : ¬a.id = sid' := fun h => hne (h.symm.trans ha)
      simp only [List.map_cons, if_pos ha]
      rw [List.find?_cons_of_neg _ (by simpa using fun h => ha' ((hf a).symm.trans h)),
        List.find?_cons_of_neg _ (by simpa using ha')]
      exact ih
    · simp only [List.map_cons, if_neg ha]
      by_cases ha' : a.id = sid'
      · rw [List.find?_cons_of_pos _ (by simpa using ha'),
          List.find?_cons_of_pos _ (by simpa using ha')]
      · rw [List.find?_cons_of_neg _ (by simpa using ha'),
          List.find?_cons_of_neg _ (by simpa using ha')]
        exact ih

theorem find_append_of_none (l1 l2 : List Session) (p : Session → Bool)
    (h : ∀ s ∈ l1, ¬p s) : (l1 ++ l2).find? p = l2.find? p := by
  induction l1 with
  | nil => simp
  | cons a rest ih =>
    rw [List.cons_append, List.find?_cons_of_neg _ (h a (by simp))]
    exact ih (fun s hs => h s (by simp [hs]))

theorem mkSessionId_ne_empty (n : Nat) : mkSessionId n ≠ "" := by
  intro h
  have hd := congrArg String.data h
  simp [mkSessionId] at hd

/-- C1: every successful `ask(message, session_id?)` returns exactly the
four components of `ChatResponse`: the generated answer text (`message`),
the resolved session identity (`chat_id`), the source labels grounding the
answer (`sources`) and the assistant turn's token count (`tokens_used`). -/
theorem ask_success_components (retrieve : String → List String)
    (ans : String) (tk : Nat) (st : OrchState) (now : Nat)
    (message : String) (sessionId : Option String) (sid : String)
    (st1 : OrchState)
    (hres : resolveSession st now sessionId = .ok (sid, st1)) :
    (ask retrieve (.ok (ans, tk)) st now message sessionId).2 =
      .ok (ChatResponse.mk ans sid (retrieve message) tk) := by
  unfold ask
  rw [hres]

/-- Witness for `ask_success_components` on the empty state with no session
identity supplied. -/
theorem ask_success_components_witness :
    (ask (fun _ => ["doc1"]) (.ok ("an answer", 7)) ⟨[], 0⟩ 5 "q" none).2 =
      .ok (ChatResponse.mk "an answer" (mkSessionId 0) ["doc1"] 7) :=
  ask_success_components (fun _ => ["doc1"]) "an answer" 7 ⟨[], 0⟩ 5 "q" none
    (mkSessionId 0) ⟨[⟨mkSessionId 0, 5, [], 0⟩], 1⟩ rfl

/-- C2: when the generative model invocation fails, `ask` returns the typed
`GenerationFailed` error, the resolved session afterwards holds exactly its
previous messages plus the new user Message (in particular no new assistant
Message), and its cumulative token counter is unchanged. -/
theorem ask_generation_failed (retrieve : String → List String)
    (st : OrchState) (now : Nat) (message : String)
    (sessionId : Option String) (sid : String) (st1 : OrchState)
    (sess : Session)
    (hres : resolveSession st now sessionId = .ok (sid, st1))
    (hfind : getSession st1 sid = some sess) :
    (ask retrieve (.error ()) st now message sessionId).2
        = .error .generationFailed ∧
    ∃ sess',
      getSession (ask retrieve (.error ()) st now message sessionId).1 sid
          = some sess' ∧
      sess'.messages = sess.messages ++ [userMsg message] ∧
      sess'.messages.filter (fun m => m.role == Role.assistant)
        = sess.messages.filter (fun m => m.role == Role.assistant) ∧
      sess'.totalTokens = sess.totalTokens := by
  unfold ask
  rw [hres]
  dsimp only
  refine ⟨rfl, { sess with messages := sess.messages ++ [userMsg message] },
    ?_, rfl, ?_, rfl⟩
  · have h := find_update_self st1.sessions sid
      (fun s => { s with messages := s.messages ++ [userMsg message] })
      (fun s => rfl) sess hfind
    simpa [getSession, updateSession] using h
  · simp [List.filter_append, userMsg]

/-- Witness for `ask_generation_failed` on a state holding one session with
an existing user/assistant exchange. -/
theorem ask_generation_failed_witness :
    (ask (fun _ => []) (.error ())
        ⟨[⟨"a", 0, [userMsg "hi", assistantMsg "yo" 3 []], 3⟩], 0⟩
        9 "next" (some "a")).2 = .error .generationFailed ∧
    ∃ sess',
      getSession (ask (fun _ => []) (.error ())
          ⟨[⟨"a", 0, [userMsg "hi", assistantMsg "yo" 3 []], 3⟩], 0⟩
          9 "next" (some "a")).1 "a" = some sess' ∧
      sess'.messages
          = [userMsg "hi", assistantMsg "yo" 3 []] ++ [userMsg "next"] ∧
      sess'.messages.filter (fun m => m.role == Role.assistant)
        = ([userMsg "hi", assistantMsg "yo" 3 []] : List Msg).filter
            (fun m => m.role == Role.assistant) ∧
      sess'.totalTokens = 3 :=
  ask_generation_failed (fun _ => [])
    ⟨[⟨"a", 0, [userMsg "hi", assistantMsg "yo" 3 []], 3⟩], 0⟩
    9 "next" (some "a") "a"
    ⟨[⟨"a", 0, [userMsg "hi", assistantMsg "yo" 3 []], 3⟩], 0⟩
    ⟨"a", 0, [userMsg "hi", assistantMsg "yo" 3 []], 3⟩
    rfl rfl

/-- C3: clearing an existing session removes all of its Messages and resets
its cumulative token counter to 0 while preserving its identity (and
creation timestamp); no other session state is modified — every other
session is looked up unchanged, the session count and the id counter are
untouched. -/
theorem clear_session_spec (st : OrchState) (sid : String) (sess : Session)
    (hfind : getSession st sid = some sess) :
    getSession (clearSession st sid) sid
        = some { sess with messages := [], totalTokens := 0 } ∧
    ({ sess with messages := [], totalTokens := 0 } : Session).id = sess.id ∧
    (∀ sid', sid' ≠ sid →
      getSession (clearSession st sid) sid' = getSession st sid') ∧
    (clearSession st sid).nextId = st.nextId ∧
    (clearSession st sid).sessions.length = st.sessions.length := by
  refine ⟨?_, rfl, ?_, rfl, ?_⟩
  · have h := find_update_self st.sessions sid
      (fun s => { s with messages := [], totalTokens := 0 })
      (fun s => rfl) sess hfind
    simpa [getSession, clearSession, updateSession] using h
  · intro sid' hne
    have h := find_update_other st.sessions sid sid'
      (fun s => { s with messages := [], totalTokens := 0 })
      (fun s => rfl) hne
    simpa [getSession, clearSession, updateSession] using h
  · simp [clearSession, updateSession]

/-- Witness for `clear_session_spec`: clearing a session holding 10 messages
(5 exchanges, 50 accumulated tokens) while a second session is present. -/
theorem clear_session_spec_witness :
    getSession (clearSession
        ⟨[⟨"a", 0, [userMsg "m1", assistantMsg "r1" 10 [], userMsg "m2",
            assistantMsg "r2" 10 [], userMsg "m3", assistantMsg "r3" 10 [],
            userMsg "m4", assistantMsg "r4" 10 [], userMsg "m5",
            assistantMsg "r5" 10 []], 50⟩, ⟨"b", 1, [userMsg "x"], 0⟩], 2⟩
        "a") "a"
        = some { (⟨"a", 0, [userMsg "m1", assistantMsg "r1" 10 [],
            userMsg "m2", assistantMsg "r2" 10 [], userMsg "m3",
            assistantMsg "r3" 10 [], userMsg "m4", assistantMsg "r4" 10 [],
            userMsg "m5", assistantMsg "r5" 10 []], 50⟩ : Session) with
            messages := [], totalTokens := 0 } ∧
    ({ (⟨"a", 0, [userMsg "m1", assistantMsg "r1" 10 [], userMsg "m2",
        assistantMsg "r2" 10 [], userMsg "m3", assistantMsg "r3" 10 [],
        userMsg "m4", assistantMsg "r4" 10 [], userMsg "m5",
        assistantMsg "r5" 10 []], 50⟩ : Session) with
        messages := [], totalTokens := 0 } : Session).id = "a" ∧
    (∀ sid', sid' ≠ "a" →
      getSession (clearSession
          ⟨[⟨"a", 0, [userMsg "m1", assistantMsg "r1" 10 [], userMsg "m2",
              assistantMsg "r2" 10 [], userMsg "m3", assistantMsg "r3" 10 [],
              userMsg "m4", assistantMsg "r4" 10 [], userMsg "m5",
              assistantMsg "r5" 10 []], 50⟩, ⟨"b", 1, [userMsg "x"], 0⟩], 2⟩
          "a") sid'
        = getSession
            ⟨[⟨"a", 0, [userMsg "m1", assistantMsg "r1" 10 [], userMsg "m2",
                assistantMsg "r2" 10 [], userMsg "m3", assistantMsg "r3" 10 [],
                userMsg "m4", assistantMsg "r4" 10 [], userMsg "m5",
                assistantMsg "r5" 10 []], 50⟩, ⟨"b", 1, [userMsg "x"], 0⟩], 2⟩
            sid') ∧
    (clearSession
        ⟨[⟨"a", 0, [userMsg "m1", assistantMsg "r1" 10 [], userMsg "m2",
            assistantMsg "r2" 10 [], userMsg "m3", assistantMsg "r3" 10 [],
            userMsg "m4", assistantMsg "r4" 10 [], userMsg "m5",
            assistantMsg "r5" 10 []], 50⟩, ⟨"b", 1, [userMsg "x"], 0⟩], 2⟩
        "a").nextId = 2 ∧
    (clearSession
        ⟨[⟨"a", 0, [userMsg "m1", assistantMsg "r1" 10 [], userMsg "m2",
            assistantMsg "r2" 10 [], userMsg "m3", assistantMsg "r3" 10 [],
            userMsg "m4", assistantMsg "r4" 10 [], userMsg "m5",
            assistantMsg "r5" 10 []], 50⟩, ⟨"b", 1, [userMsg "x"], 0⟩], 2⟩
        "a").sessions.length = 2 :=
  clear_session_spec
    ⟨[⟨"a", 0, [userMsg "m1", assistantMsg "r1" 10 [], userMsg "m2",
        assistantMsg "r2" 10 [], userMsg "m3", assistantMsg "r3" 10 [],
        userMsg "m4", assistantMsg "r4" 10 [], userMsg "m5",
        assistantMsg "r5" 10 []], 50⟩, ⟨"b", 1, [userMsg "x"], 0⟩], 2⟩
    "a"
    ⟨"a", 0, [userMsg "m1", assistantMsg "r1" 10 [], userMsg "m2",
      assistantMsg "r2" 10 [], userMsg "m3", assistantMsg "r3" 10 [],
      userMsg "m4", assistantMsg "r4" 10 [], userMsg "m5",
      assistantMsg "r5" 10 []], 50⟩
    rfl

theorem ask_success_session (retrieve : String → List String)
    (ans : String) (tk : Nat) (st : OrchState) (now : Nat)
    (message : String) (sessionId : Option String) (sid : String)
    (st1 : OrchState) (sess : Session)
    (hres : resolveSession st now sessionId = .ok (sid, st1))
    (hfind : getSession st1 sid = some sess) :
    getSession (ask retrieve (.ok (ans, tk)) st now message sessionId).1 sid
      = some { sess with
          messages := (sess.messages ++ [userMsg message])
            ++ [assistantMsg ans tk (retrieve message)],
          totalTokens := sess.totalTokens + tk } := by
  unfold ask
  rw [hres]
  dsimp only
  have h2 := find_update_self st1.sessions sid
    (fun s => { s with messages := s.messages ++ [userMsg message] })
    (fun s => rfl) sess (by simpa [getSession] using hfind)
  have h3 := find_update_self
    (st1.sessions.map
      (fun s => if s.id = sid
        then { s with messages := s.messages ++ [userMsg message] } else s))
    sid
    (fun s => { s with
      messages := s.messages ++ [assistantMsg ans tk (retrieve message)],
      totalTokens := s.totalTokens + tk })
    (fun s => rfl) _ h2
  simpa [getSession, updateSession] using h3

/-- C4: `ask` with no session identity supplied creates a new Session: the
returned identity is the freshly generated one, it is non-empty, it differs
from every pre-existing session's identity (a fresh session is created, an
existing one is never reused), the session count grows by one, and after the
call the new session's history is exactly the user Message followed by the
assistant Message (length 2).  The hypothesis is the id-generator
invariant: the counter's next identity is not yet in use. -/
theorem ask_new_session (retrieve : String → List String) (ans : String)
    (tk : Nat) (st : OrchState) (now : Nat) (message : String)
    (hfresh : ∀ s ∈ st.sessions, s.id ≠ mkSessionId st.nextId) :
    ∃ r, (ask retrieve (.ok (ans, tk)) st now message none).2 = .ok r ∧
      r.chat_id = mkSessionId st.nextId ∧
      r.chat_id ≠ "" ∧
      (∀ s ∈ st.sessions, s.id ≠ r.chat_id) ∧
      (ask retrieve (.ok (ans, tk)) st now message none).1.sessions.length
        = st.sessions.length + 1 ∧
      getSession (ask retrieve (.ok (ans, tk)) st now message none).1
          r.chat_id
        = some ⟨mkSessionId st.nextId, now,
            [userMsg message, assistantMsg ans tk (retrieve message)], tk⟩ := by
  refine ⟨⟨ans, mkSessionId st.nextId, retrieve message, tk⟩, rfl, rfl,
    mkSessionId_ne_empty _, hfresh, ?_, ?_⟩
  · simp [ask, resolveSession, updateSession]
  · have hres : resolveSession st now none
        = .ok (mkSessionId st.nextId,
            ⟨st.sessions ++ [⟨mkSessionId st.nextId, now, [], 0⟩],
             st.nextId + 1⟩) := rfl
    have hfind : getSession
        ⟨st.sessions ++ [⟨mkSessionId st.nextId, now, [], 0⟩],
         st.nextId + 1⟩ (mkSessionId st.nextId)
        = some ⟨mkSessionId st.nextId, now, [], 0⟩ := by
      unfold getSession
      rw [find_append_of_none _ _ _
        (fun s hs => by simpa using hfresh s hs)]
      exact List.find?_cons_of_pos _ (by simp)
    have h := ask_success_session retrieve ans tk st now message none
      (mkSessionId st.nextId)
      ⟨st.sessions ++ [⟨mkSessionId st.nextId, now, [], 0⟩], st.nextId + 1⟩
      ⟨mkSessionId st.nextId, now, [], 0⟩ hres hfind
    simpa using h

/-- Witness for `ask_new_session` on a state already holding one session. -/
theorem ask_new_session_witness :
    ∃ r, (ask (fun _ => ["doc1"]) (.ok ("ans", 4))
        ⟨[⟨"old", 0, [], 0⟩], 3⟩ 7 "What is X?" none).2 = .ok r ∧
      r.chat_id = mkSessionId 3 ∧
      r.chat_id ≠ "" ∧
      (∀ s ∈ ([⟨"old", 0, [], 0⟩] : List Session), s.id ≠ r.chat_id) ∧
      (ask (fun _ => ["doc1"]) (.ok ("ans", 4))
        ⟨[⟨"old", 0, [], 0⟩], 3⟩ 7 "What is X?" none).1.sessions.length
        = 1 + 1 ∧
      getSession (ask (fun _ => ["doc1"]) (.ok ("ans", 4))
          ⟨[⟨"old", 0, [], 0⟩], 3⟩ 7 "What is X?" none).1 r.chat_id
        = some ⟨mkSessionId 3, 7,
            [userMsg "What is X?",
             assistantMsg "ans" 4 ["doc1"]], 4⟩ :=
  ask_new_session (fun _ => ["doc1"]) "ans" 4 ⟨[⟨"old", 0, [], 0⟩], 3⟩ 7
    "What is X?" (by decide)

/-- C8: the chat interface's running total-token counter always equals the
sum of `tokens_used` over the assistant messages currently in the list:
the invariant is preserved by a send (successful or failed) and by a clear;
the counter increases by exactly `resp.tokens_used` on a successful turn
past the guard, is unchanged when the request fails, and resets to 0 on
clear. -/
theorem chat_tokens_invariant (st : ChatUIState) (o : Option ChatResponse)
    (resp : ChatResponse) (uid aid now : String) (hinv : tokensInv st) :
    tokensInv (handleSendMessage st o uid aid now).1 ∧
    tokensInv (clearChat st) ∧
    (clearChat st).totalTokens = 0 ∧
    (handleSendMessage st none uid aid now).1.totalTokens
      = st.totalTokens ∧
    (¬(jsTrim st.inputMessage = "" ∨ st.isLoading = true) →
      (handleSendMessage st (some resp) uid aid now).1.totalTokens
        = st.totalTokens + resp.tokens_used) := by
  refine ⟨?_, ?_, rfl, ?_, ?_⟩
  · unfold handleSendMessage
    split_ifs with hg
    · exact hinv
    · cases o with
      | none =>
        dsimp only
        unfold tokensInv at hinv ⊢
        simp [List.filter_append, hinv]
      | some r =>
        dsimp only
        unfold tokensInv at hinv ⊢
        simp [List.filter_append, hinv]
  · unfold tokensInv clearChat
    simp
  · unfold handleSendMessage
    split_ifs with hg <;> rfl
  · intro hg
    unfold handleSendMessage
    rw [if_neg hg]

/-- Witness for `chat_tokens_invariant` on a state holding one assistant
message worth 2 tokens, sending successfully a turn worth 5. -/
theorem chat_tokens_invariant_witness :
    tokensInv (handleSendMessage
        ⟨[⟨"m0", "x", .assistant, "t0", some 2⟩], "hello", false,
         some "c", [], 2⟩
        (some ⟨"ok", "c1", ["d"], 5⟩) "u" "a" "t").1 ∧
    (handleSendMessage
        ⟨[⟨"m0", "x", .assistant, "t0", some 2⟩], "hello", false,
         some "c", [], 2⟩
        (some ⟨"ok", "c1", ["d"], 5⟩) "u" "a" "t").1.totalTokens = 2 + 5 := by
  have h := chat_tokens_invariant
    ⟨[⟨"m0", "x", .assistant, "t0", some 2⟩], "hello", false,
     some "c", [], 2⟩
    (some ⟨"ok", "c1", ["d"], 5⟩) ⟨"ok", "c1", ["d"], 5⟩ "u" "a" "t"
    (by unfold tokensInv; decide)
  exact ⟨h.1, h.2.2.2.2 (by decide)⟩

/-- C9: when the trimmed input is empty or a request is already in flight,
the chat send operation performs no API call and leaves the state (message
list, session identity, token counter, everything) unchanged; past the
guard, the request sent is exactly the trimmed input together with the
current chat id. -/
theorem send_guard (st : ChatUIState) (o : Option ChatResponse)
    (uid aid now : String) :
    ((jsTrim st.inputMessage = "" ∨ st.isLoading = true) →
      handleSendMessage st o uid aid now = (st, none)) ∧
    (¬(jsTrim st.inputMessage = "" ∨ st.isLoading = true) →
      (handleSendMessage st o uid aid now).2
        = some ⟨jsTrim st.inputMessage, st.currentChatId⟩) := by
  constructor
  · intro hg
    unfold handleSendMessage
    rw [if_pos hg]
  · intro hg
    unfold handleSendMessage
    rw [if_neg hg]
    cases o <;> rfl

/-- Witness for `send_guard`: whitespace-only input sends nothing and
changes nothing; " hi " sends the trimmed "hi". -/
theorem send_guard_witness :
    handleSendMessage ⟨[], "   ", false, none, [], 0⟩ none "u" "a" "t"
      = (⟨[], "   ", false, none, [], 0⟩, none) ∧
    (handleSendMessage ⟨[], " hi ", false, none, [], 0⟩
        (some ⟨"ok", "c1", [], 2⟩) "u" "a" "t").2
      = some ⟨"hi", none⟩ :=
  ⟨(send_guard ⟨[], "   ", false, none, [], 0⟩ none "u" "a" "t").1
      (by decide),
   ((send_guard ⟨[], " hi ", false, none, [], 0⟩
      (some ⟨"ok", "c1", [], 2⟩) "u" "a" "t").2 (by decide)).trans
      (by decide)⟩

/-- C10 counterexample: for a file named `"a.txt.md"` with MIME type
`text/plain`, `handleFileSelect` accepts it and sets the default title to
`"a.md"` (JavaScript's `name.replace('.txt', '')` removes the FIRST
occurrence of `".txt"`), whereas the claim's "name minus the `.txt` suffix"
is `"a.txt.md"` itself, since the name does not end in `".txt"`. -/
theorem file_select_counterexample :
    (handleFileSelect ⟨none, "", none⟩
        (some ⟨"a.txt.md", "text/plain"⟩)).selectedFile
      = some ⟨"a.txt.md", "text/plain"⟩ ∧
    (handleFileSelect ⟨none, "", none⟩
        (some ⟨"a.txt.md", "text/plain"⟩)).customTitle = "a.md" ∧
    specDefaultTitle "a.txt.md" = "a.txt.md" ∧
    ("a.md" : String) ≠ "a.txt.md" :=
  ⟨by decide, by decide, by decide, by decide⟩

/-- C10 (amended): a chosen file is accepted as the selected upload if and
only if its MIME type is `text/plain` or its name ends with `".txt"`; on
acceptance the default title is the file's name with the FIRST occurrence
of `".txt"` removed (which equals the name minus the `.txt` suffix whenever
the suffix is the only occurrence); any other file leaves the selected-file
state and title unchanged and shows the error banner
"Please select a .txt file". -/
theorem file_select_spec (st : UploadState) (f : FileInfo) :
    ((f.mime = "text/plain" ∨ jsEndsWith f.name ".txt" = true) →
      handleFileSelect st (some f)
        = { st with selectedFile := some f,
                    customTitle := jsReplaceFirst f.name ".txt" }) ∧
    (¬(f.mime = "text/plain" ∨ jsEndsWith f.name ".txt" = true) →
      handleFileSelect st (some f)
        = { st with banner := some (.error, "Please select a .txt file") }) ∧
    handleFileSelect st none = st := by
  unfold handleFileSelect
  dsimp only
  split_ifs with h
  · have hp : f.mime = "text/plain" ∨ jsEndsWith f.name ".txt" = true := by
      simpa [Bool.or_eq_true, decide_eq_true_eq] using h
    exact ⟨fun _ => rfl, fun hn => absurd hp hn, rfl⟩
  · have hp : ¬(f.mime = "text/plain" ∨ jsEndsWith f.name ".txt" = true) := by
      intro hc
      apply h
      simpa [Bool.or_eq_true, decide_eq_true_eq] using hc
    exact ⟨fun hc => absurd hc hp, fun _ => rfl, rfl⟩

/-- Witness for `file_select_spec`: `"notes.txt"` is accepted with default
title `"notes"`; `"data.csv"` of type `text/csv` is rejected with the error
banner. -/
theorem file_select_spec_witness :
    handleFileSelect ⟨none, "", none⟩ (some ⟨"notes.txt", "text/plain"⟩)
      = { (⟨none, "", none⟩ : UploadState) with
          selectedFile := some ⟨"notes.txt", "text/plain"⟩,
          customTitle := jsReplaceFirst "notes.txt" ".txt" } ∧
    handleFileSelect ⟨none, "", none⟩ (some ⟨"data.csv", "text/csv"⟩)
      = { (⟨none, "", none⟩ : UploadState) with
          banner := some (.error, "Please select a .txt file") } :=
  ⟨(file_select_spec ⟨none, "", none⟩ ⟨"notes.txt", "text/plain"⟩).1
      (Or.inl rfl),
   (file_select_spec ⟨none, "", none⟩ ⟨"data.csv", "text/csv"⟩).2.1
      (by decide)⟩
